import Mathlib

/-!
Verification of the tab-coordination core of the sqlite-wasm-demo repository:
the access arbiter (src/coordinator.rs), the connection pool
(src/connection_pool.rs), the shared-worker membership registry
(crates/tab_coordinator_shared_worker/src/lib.rs) and the participant client
(crates/tab_coordinator/src/lib.rs), shallowly embedded in Lean.

Modelling conventions:
- Rust HashMap<String, ()> key sets become duplicate-free String lists
  (insert-if-absent, filter for remove); only membership and emptiness of
  these maps are observed by the code under verification, so the arbitrary
  iteration order of a HashMap is irrelevant to the embedded operations.
- f64 millisecond timestamps become Int (the code only compares differences
  against constant thresholds).
- Rust panics become Option.none results.
- Async methods mutate state behind a Mutex and are straight-line; they are
  embedded as pure state-passing functions.
-/

/- ===================== Access arbiter (src/coordinator.rs) ===================== -/

/-- AccessResponse from src/coordinator.rs. -/
structure AccessResponse where
  granted : Bool
  worker_id : String
  operation : String
  queue_position : Option Nat
deriving Repr, DecidableEq

/-- QueuedRequest from src/coordinator.rs. -/
structure QueuedRequest where
  worker_id : String
  operation : String
deriving Repr, DecidableEq

/-- TransactionState from my-example/src/lib.rs. -/
structure TransactionState where
  tab_id : String
  operations : List String
  start_time : Int
deriving Repr, DecidableEq

/-- The fields of CoordinatorState read or written by request_access,
complete_operation, get_next_queued_response, begin_transaction and
commit_transaction. active_readers is the key set of the
HashMap<String, ()>; write_queue is the VecDeque front-first. -/
structure CoordinatorState where
  active_writer : Option String
  write_queue : List QueuedRequest
  active_readers : List String
  current_transaction : Option TransactionState
deriving Repr, DecidableEq

/-- HashMap::insert on a unit-valued map: the key set gains the key if absent. -/
def readersInsert (rs : List String) (id : String) : List String :=
  if id ∈ rs then rs else id :: rs

/-- HashMap::remove on a unit-valued map: drop the key. -/
def readersRemove (rs : List String) (id : String) : List String :=
  rs.filter (fun r => r ≠ id)

/-- CoordinatorState::default(): everything empty. -/
def initState : CoordinatorState :=
  { active_writer := none, write_queue := [], active_readers := [],
    current_transaction := none }

/-- MockCoordinator::request_access.  Returns the new state and the response;
none models the panic on an unknown operation string.  The transaction guard
reports position write_queue.len() without pushing; the write-queue branch
pushes first and reports len()-1, which equals the pre-push length. -/
def request_access (st : CoordinatorState) (worker_id operation : String) :
    Option (CoordinatorState × AccessResponse) :=
  if operation = "write" ∧ st.current_transaction.isSome then
    some (st, { granted := false, worker_id := worker_id, operation := operation,
                queue_position := some st.write_queue.length })
  else if operation = "write" then
    if st.active_writer = none ∧ st.active_readers = [] then
      some ({ st with active_writer := some worker_id },
            { granted := true, worker_id := worker_id, operation := operation,
              queue_position := none })
    else
      some ({ st with write_queue :=
                st.write_queue ++ [{ worker_id := worker_id, operation := operation }] },
            { granted := false, worker_id := worker_id, operation := operation,
              queue_position := some st.write_queue.length })
  else if operation = "read" then
    if st.active_writer = none then
      some ({ st with active_readers := readersInsert st.active_readers worker_id },
            { granted := true, worker_id := worker_id, operation := operation,
              queue_position := none })
    else
      some (st, { granted := false, worker_id := worker_id, operation := operation,
                  queue_position := none })
  else
    none

/-- MockCoordinator::complete_operation: clear the writer if it matches,
remove the id from the readers unconditionally. -/
def complete_operation (st : CoordinatorState) (worker_id : String) : CoordinatorState :=
  let st1 := if st.active_writer = some worker_id then { st with active_writer := none } else st
  { st1 with active_readers := readersRemove st1.active_readers worker_id }

/-- MockCoordinator::get_next_queued_response: pop the queue head and grant it
when the lock is fully free; none models the two panics (empty queue,
lock not free). -/
def get_next_queued_response (st : CoordinatorState) :
    Option (CoordinatorState × AccessResponse) :=
  match st.write_queue with
  | [] => none
  | next :: rest =>
    if st.active_writer = none ∧ st.active_readers = [] then
      some ({ st with active_writer := some next.worker_id, write_queue := rest },
            { granted := true, worker_id := next.worker_id, operation := next.operation,
              queue_position := none })
    else
      none

/-- MockCoordinator::begin_transaction: unconditionally installs a fresh
transaction for tab_id, replacing any active one. -/
def begin_transaction (st : CoordinatorState) (tab_id : String) (now : Int) :
    CoordinatorState :=
  let tx : TransactionState := { tab_id := tab_id, operations := [], start_time := now }
  { st with current_transaction := some tx }

/-- MockCoordinator::commit_transaction: ignores its tab_id argument and
clears the current transaction. -/
def commit_transaction (st : CoordinatorState) (_tab_id : String) : CoordinatorState :=
  { st with current_transaction := none }

/-- The arbiter calls a trace may perform. -/
inductive ArbOp where
  | request (worker_id operation : String)
  | complete (worker_id : String)
  | drain
  | beginTx (tab_id : String) (now : Int)
  | commitTx (tab_id : String)
deriving Repr, DecidableEq

/-- One arbiter call as a state transition; none propagates a panic. -/
def arbStep (st : CoordinatorState) : ArbOp → Option CoordinatorState
  | .request w op => (request_access st w op).map Prod.fst
  | .complete w => some (complete_operation st w)
  | .drain => (get_next_queued_response st).map Prod.fst
  | .beginTx t now => some (begin_transaction st t now)
  | .commitTx t => some (commit_transaction st t)

/-- Run a trace of arbiter calls. -/
def arbRun (st : CoordinatorState) : List ArbOp → Option CoordinatorState
  | [] => some st
  | op :: ops =>
    match arbStep st op with
    | none => none
    | some st1 => arbRun st1 ops

/-- The queued requests a call grants: a successful drain grants exactly the
current queue head, every other call grants nothing from the queue. -/
def drainGrant (st : CoordinatorState) : ArbOp → List QueuedRequest
  | .drain => st.write_queue.take 1
  | _ => []

/-- Run a trace and also collect, in order, the queued requests granted by
drain calls. -/
def arbRunG (st : CoordinatorState) :
    List ArbOp → Option (CoordinatorState × List QueuedRequest)
  | [] => some (st, [])
  | op :: ops =>
    match arbStep st op with
    | none => none
    | some st1 => (arbRunG st1 ops).map (fun p => (p.1, drainGrant st op ++ p.2))

/-- The mutual-exclusion invariant of the lock state. -/
def MutexInv (st : CoordinatorState) : Prop :=
  st.active_writer = none ∨ st.active_readers = []

/- ===================== Connection pool (src/connection_pool.rs) ===================== -/

/-- Connection from src/connection_pool.rs. -/
structure Connection where
  id : String
  initialized : Bool
  last_used : Int
  reused : Bool
deriving Repr, DecidableEq

/-- ConnectionPool: the HashMap<String, Connection> keyed by Connection.id is
modelled as a list of connections (ids kept unique by poolInsert); the code
only observes len(), per-id lookup and whole-map scans, so HashMap iteration
order is irrelevant to the properties proved below. -/
structure PoolState where
  connections : List Connection
  max_size : Nat
deriving Repr, DecidableEq

/-- ConnectionPool::acquire, reuse path: values_mut().find(|c| !c.initialized)
marks the first free connection acquired and stamps its last-used time. -/
def markAcquired (now : Int) : List Connection → Option (List Connection × Connection)
  | [] => none
  | c :: cs =>
    if c.initialized = false then
      let c1 : Connection := { c with initialized := true, last_used := now, reused := true }
      some (c1 :: cs, c1)
    else
      (markAcquired now cs).map (fun p => (c :: p.1, p.2))

/-- HashMap::insert keyed by id: replaces the entry whose key matches,
otherwise adds a new entry. -/
def poolInsert (cs : List Connection) (c : Connection) : List Connection :=
  if cs.any (fun d => d.id == c.id) then
    cs.map (fun d => if d.id = c.id then c else d)
  else
    cs ++ [c]

/-- ConnectionPool::acquire: reuse a free connection, else create one under
the cap (id conn-len), else fail with pool exhausted. -/
def acquire (p : PoolState) (now : Int) : PoolState × Except String Connection :=
  match markAcquired now p.connections with
  | some (cs, c) => ({ p with connections := cs }, Except.ok c)
  | none =>
    if p.connections.length < p.max_size then
      let c : Connection := { id := "conn-" ++ toString p.connections.length,
                              initialized := true, last_used := now, reused := false }
      ({ p with connections := poolInsert p.connections c }, Except.ok c)
    else
      (p, Except.error "Pool exhausted")

/-- ConnectionPool::release: if an entry with the released id exists, mark it
free and stamp its last-used time. -/
def release (p : PoolState) (conn_id : String) (now : Int) : PoolState :=
  { p with connections := p.connections.map (fun c =>
      if c.id = conn_id then { c with initialized := false, last_used := now } else c) }

/-- ConnectionPool::available_connections: max_size - len() (usize). -/
def available_connections (p : PoolState) : Nat :=
  p.max_size - p.connections.length

/-- ConnectionPool::cleanup_stale_connections: retain exactly the connections
whose last-used age is below 300000 ms; the predicate does not look at
the initialized (busy) flag. -/
def cleanup_stale_connections (p : PoolState) (now : Int) : PoolState :=
  { p with connections := p.connections.filter (fun c => now - c.last_used < 300000) }

/-- The pool calls a trace may perform. -/
inductive PoolOp where
  | acquireCall (now : Int)
  | releaseCall (id : String) (now : Int)
  | cleanupCall (now : Int)
deriving Repr, DecidableEq

/-- One pool call as a state transition (acquire results are discarded). -/
def poolStep (p : PoolState) : PoolOp → PoolState
  | .acquireCall now => (acquire p now).1
  | .releaseCall id now => release p id now
  | .cleanupCall now => cleanup_stale_connections p now

/-- Run a trace of pool calls. -/
def poolRun (p : PoolState) : List PoolOp → PoolState
  | [] => p
  | op :: ops => poolRun (poolStep p op) ops

/-- ConnectionPool::new(max_size): empty map. -/
def emptyPool (max_size : Nat) : PoolState :=
  { connections := [], max_size := max_size }

/- ============ Shared-worker broker (crates/tab_coordinator_shared_worker) ============ -/

/-- TabMessage, the protocol enum shared by the broker and the participant
client. -/
inductive TabMessage where
  | Register (tab_id : String)
  | CheckLeader (tab_id : String)
  | LeaderResponse (is_leader : Bool)
  | QueryLeader (from_tab_id : String)
  | LeaderDataResponse (data : String) (from_tab_id : String)
  | Disconnect (tab_id : String)
  | ExecuteQuery (sql : String) (from_tab_id : String)
  | QueryResponse (results : List (List String)) (from_tab_id : String)
      (error : Option String)
deriving Repr, DecidableEq

/-- TabState of the shared worker: tabs is the VecDeque<String> in arrival
order; ports is the key set of the HashMap<String, Rc<MessagePort>> (the port
object itself is opaque and is identified here by its key). -/
structure TabState where
  tabs : List String
  ports : List String
deriving Repr, DecidableEq

/-- TabState::new(). -/
def emptyTabState : TabState := { tabs := [], ports := [] }

/-- TabState::get_leader: the front of the tabs deque; there is no heartbeat
or liveness data in TabState, so no staleness filtering happens. -/
def get_leader (st : TabState) : Option String :=
  st.tabs.head?

/-- TabState::register_tab: append the id to tabs if absent, record the port
(HashMap::insert: the key set gains the key if absent). -/
def register_tab (st : TabState) (tab_id : String) : TabState :=
  { tabs := if tab_id ∈ st.tabs then st.tabs else st.tabs ++ [tab_id],
    ports := if tab_id ∈ st.ports then st.ports else st.ports ++ [tab_id] }

/-- TabState::remove_tab: retain the other ids in tabs, drop the port. -/
def remove_tab (st : TabState) (tab_id : String) : TabState :=
  { tabs := st.tabs.filter (fun id => id ≠ tab_id),
    ports := st.ports.filter (fun id => id ≠ tab_id) }

/-- Destination of an outbound broker message: the port the inbound message
arrived on, or the registered port of a given tab. -/
inductive Dest where
  | sender
  | tab (id : String)
deriving Repr, DecidableEq

/-- handle_message of the shared worker: the new state plus the messages
posted, in order, with their destinations.  Console logging is omitted.  The
Register arm computes is_leader only to log it and posts nothing; the
Disconnect arm only removes the tab; the catch-all arm posts nothing. -/
def handle_message (st : TabState) (msg : TabMessage) : TabState × List (Dest × TabMessage) :=
  match msg with
  | .Register tab_id => (register_tab st tab_id, [])
  | .CheckLeader tab_id =>
    let is_leader := match get_leader st with
      | some leader_id => leader_id == tab_id
      | none => false
    (st, [(Dest.sender, TabMessage.LeaderResponse is_leader)])
  | .QueryLeader from_tab_id =>
    match get_leader st with
    | some leader_id =>
      if leader_id ∈ st.ports then
        (st, [(Dest.tab leader_id, TabMessage.QueryLeader from_tab_id)])
      else (st, [])
    | none => (st, [])
  | .LeaderDataResponse data from_tab_id =>
    if from_tab_id ∈ st.ports then
      (st, [(Dest.tab from_tab_id, TabMessage.LeaderDataResponse data from_tab_id)])
    else (st, [])
  | .Disconnect tab_id => (remove_tab st tab_id, [])
  | .ExecuteQuery sql from_tab_id =>
    match get_leader st with
    | some leader_id =>
      if leader_id ∈ st.ports then
        (st, [(Dest.tab leader_id, TabMessage.ExecuteQuery sql from_tab_id)])
      else (st, [])
    | none => (st, [])
  | .QueryResponse results from_tab_id error =>
    if from_tab_id ∈ st.ports then
      (st, [(Dest.tab from_tab_id, TabMessage.QueryResponse results from_tab_id error)])
    else (st, [])
  | .LeaderResponse _ => (st, [])

/-- A registry event with the wall-clock time at which it is processed; the
broker code records no times, the spec reasons about heartbeat ages. -/
inductive RegEvent where
  | register (tab_id : String) (time : Int)
  | disconnect (tab_id : String) (time : Int)
deriving Repr, DecidableEq

/-- Run a trace of Register and Disconnect messages through the broker code
(which ignores the event times entirely). -/
def runRegistry (st : TabState) : List RegEvent → TabState
  | [] => st
  | .register id _t :: es => runRegistry (register_tab st id) es
  | .disconnect id _t :: es => runRegistry (remove_tab st id) es

/-- The ordered sequence of live participant ids of the trace, insertion
order = arrival order (the Membership Registry sequence as the spec words
it), computed directly from the event list. -/
def regOrder : List RegEvent → List String → List String
  | [], acc => acc
  | .register id _t :: es, acc =>
    regOrder es (if id ∈ acc then acc else acc ++ [id])
  | .disconnect id _t :: es, acc =>
    regOrder es (acc.filter (fun t => t ≠ id))

/-- Modelled from the spec: last_heartbeat of a participant, updated on its
inbound activity and destroyed on Disconnect.  The shared-worker code stores
no heartbeat at all; this definition exists to state the staleness side of
the leader-derivation claim. -/
def lastHeartbeat (evs : List RegEvent) (id : String) : Option Int :=
  evs.foldl (fun acc e =>
    match e with
    | .register i t => if i = id then some t else acc
    | .disconnect i _t => if i = id then none else acc) none

/-- Modelled from the spec: current_leader as the spec words it — the
earliest surviving id by registration order whose heartbeat age is within the
5000 ms liveness timeout; a stale earliest id is skipped. -/
def specLeader (evs : List RegEvent) (now : Int) : Option String :=
  (regOrder evs []).find? (fun id =>
    match lastHeartbeat evs id with
    | some t => now - t < 5000
    | none => false)

/- ============ Participant client (crates/tab_coordinator/src/lib.rs) ============ -/

/-- The correlation state of TabManager: response_sender and
query_response_sender are the two single-slot RefCell<Option<oneshot::Sender>>
fields; a pending sender is identified by the token of the oneshot channel it
belongs to, next_token numbering the channels in creation order. -/
structure TabManagerState where
  tab_id : String
  response_sender : Option Nat
  query_response_sender : Option Nat
  next_token : Nat
deriving Repr, DecidableEq

/-- TabManager::check_leader up to its await point: create a fresh oneshot
channel, store its sender in response_sender (a plain overwrite of whatever
was there), and post CheckLeader.  Returns the new state, the token the
caller awaits, and the posted message. -/
def check_leader_start (st : TabManagerState) : TabManagerState × Nat × TabMessage :=
  ({ st with response_sender := some st.next_token, next_token := st.next_token + 1 },
   st.next_token, TabMessage.CheckLeader st.tab_id)

/-- TabManager::route_query up to its await point: create a fresh oneshot
channel, store its sender in query_response_sender (a plain overwrite), and
post ExecuteQuery. -/
def route_query_start (st : TabManagerState) (sql : String) :
    TabManagerState × Nat × TabMessage :=
  ({ st with query_response_sender := some st.next_token, next_token := st.next_token + 1 },
   st.next_token, TabMessage.ExecuteQuery sql st.tab_id)

/-- The LeaderResponse arm of the TabManager message handler: take() the
pending sender and deliver to it; returns the token the response is delivered
to, none when no sender is pending. -/
def on_leader_response (st : TabManagerState) (_is_leader : Bool) :
    TabManagerState × Option Nat :=
  ({ st with response_sender := none }, st.response_sender)

/- ===================== theorems: arbiter single-call claims ===================== -/

/-- C4: with a transaction active, request_access(id, Write) returns a
non-granted response whose position is the current tail of the write queue,
and the state — lock, queue, readers, transaction — is left unchanged
(in particular the request is not enqueued). -/
theorem transaction_blocks_new_writes (st : CoordinatorState) (id : String)
    (h : st.current_transaction.isSome) :
    request_access st id "write" =
      some (st, { granted := false, worker_id := id, operation := "write",
                  queue_position := some st.write_queue.length }) := by
  simp [request_access, h]

/-- C4 witness: a concrete state with an active transaction and a busy lock. -/
theorem transaction_blocks_new_writes_witness :
    request_access
      { active_writer := some "w0", write_queue := [{ worker_id := "q0", operation := "write" }],
        active_readers := [],
        current_transaction := some { tab_id := "t", operations := [], start_time := 0 } }
      "x" "write" =
      some ({ active_writer := some "w0",
              write_queue := [{ worker_id := "q0", operation := "write" }],
              active_readers := [],
              current_transaction := some { tab_id := "t", operations := [], start_time := 0 } },
            { granted := false, worker_id := "x", operation := "write",
              queue_position := some 1 }) :=
  transaction_blocks_new_writes
    { active_writer := some "w0", write_queue := [{ worker_id := "q0", operation := "write" }],
      active_readers := [],
      current_transaction := some { tab_id := "t", operations := [], start_time := 0 } }
    "x" (by decide)

/-- C7: request_access(id, Read) is granted iff active_writer is none; a
granted read only adds the id to the reader set, and a denied read reports no
queue position and leaves the state (in particular the FIFO queue) unchanged.
This holds whether or not a transaction is active: the transaction guard only
touches writes. -/
theorem read_access_iff_no_writer (st : CoordinatorState) (id : String) :
    (st.active_writer = none →
      request_access st id "read" =
        some ({ st with active_readers := readersInsert st.active_readers id },
              { granted := true, worker_id := id, operation := "read",
                queue_position := none })) ∧
    (st.active_writer ≠ none →
      request_access st id "read" =
        some (st, { granted := false, worker_id := id, operation := "read",
                    queue_position := none })) := by
  constructor
  · intro hw
    simp [request_access, hw]
  · intro hw
    simp [request_access, hw]

/-- C7 witness: a granted read on a writer-free state and a denied read under
an active writer, both evaluated concretely. -/
theorem read_access_iff_no_writer_witness :
    request_access
      { active_writer := none, write_queue := [], active_readers := ["r0"],
        current_transaction := none } "r1" "read" =
      some ({ active_writer := none, write_queue := [], active_readers := ["r1", "r0"],
              current_transaction := none },
            { granted := true, worker_id := "r1", operation := "read",
              queue_position := none }) ∧
    request_access
      { active_writer := some "w0", write_queue := [], active_readers := [],
        current_transaction := none } "r1" "read" =
      some ({ active_writer := some "w0", write_queue := [], active_readers := [],
              current_transaction := none },
            { granted := false, worker_id := "r1", operation := "read",
              queue_position := none }) := by
  constructor
  · have h := (read_access_iff_no_writer
      { active_writer := none, write_queue := [], active_readers := ["r0"],
        current_transaction := none } "r1").1 (by decide)
    simpa [readersInsert] using h
  · exact (read_access_iff_no_writer
      { active_writer := some "w0", write_queue := [], active_readers := [],
        current_transaction := none } "r1").2 (by decide)

/-- C9: transaction operations ignore ownership — begin_transaction(x)
replaces whatever transaction is active (for any current state, including one
owned by a different participant) with a fresh one owned by x, and
commit_transaction(x) clears the current transaction whoever owns it; neither
touches any other field. -/
theorem transaction_ops_ignore_ownership (st : CoordinatorState) (x : String) (now : Int) :
    begin_transaction st x now =
      { st with current_transaction := some (TransactionState.mk x [] now) } ∧
    commit_transaction st x = { st with current_transaction := none } := by
  constructor
  · rfl
  · rfl

/- ===================== theorems: arbiter trace invariants ===================== -/

/-- Case analysis of the state change performed by request_access. -/
theorem request_access_state_cases (st st1 : CoordinatorState) (w op : String)
    (r : AccessResponse) (h : request_access st w op = some (st1, r)) :
    st1 = st ∨
    (st1 = { st with active_writer := some w } ∧
      st.active_writer = none ∧ st.active_readers = []) ∨
    st1 = { st with write_queue :=
      st.write_queue ++ [{ worker_id := w, operation := op }] } ∨
    (st1 = { st with active_readers := readersInsert st.active_readers w } ∧
      st.active_writer = none) := by
  unfold request_access at h
  split at h
  · simp only [Option.some.injEq, Prod.mk.injEq] at h
    exact Or.inl h.1.symm
  · split at h
    · split at h
      case isTrue hfree =>
        simp only [Option.some.injEq, Prod.mk.injEq] at h
        exact Or.inr (Or.inl ⟨h.1.symm, hfree.1, hfree.2⟩)
      case isFalse =>
        simp only [Option.some.injEq, Prod.mk.injEq] at h
        exact Or.inr (Or.inr (Or.inl h.1.symm))
    · split at h
      · split at h
        case isTrue hw =>
          simp only [Option.some.injEq, Prod.mk.injEq] at h
          exact Or.inr (Or.inr (Or.inr ⟨h.1.symm, hw⟩))
        case isFalse =>
          simp only [Option.some.injEq, Prod.mk.injEq] at h
          exact Or.inl h.1.symm
      · cases h

/-- A single arbiter call preserves the mutual-exclusion invariant. -/
theorem arbStep_inv {st st1 : CoordinatorState} {op : ArbOp}
    (hInv : MutexInv st) (h : arbStep st op = some st1) : MutexInv st1 := by
  cases op with
  | request w oper =>
    rw [arbStep] at h
    rcases Option.map_eq_some'.mp h with ⟨⟨sta, r⟩, hra, hfst⟩
    rcases request_access_state_cases st sta w oper r hra with
      hc | ⟨hc, _, hrd⟩ | hc | ⟨hc, hw⟩
    · rw [← hfst, hc]; exact hInv
    · rw [← hfst, hc]; exact Or.inr hrd
    · rw [← hfst, hc]
      rcases hInv with h1 | h1
      · exact Or.inl h1
      · exact Or.inr h1
    · rw [← hfst, hc]; exact Or.inl hw
  | complete w =>
    rw [arbStep, Option.some.injEq] at h
    rw [← h]
    unfold complete_operation MutexInv
    split
    case isTrue => exact Or.inl rfl
    case isFalse =>
      rcases hInv with h1 | h1
      · exact Or.inl h1
      · exact Or.inr (by simp [readersRemove, h1])
  | drain =>
    rw [arbStep] at h
    rcases Option.map_eq_some'.mp h with ⟨⟨sta, r⟩, hd, hfst⟩
    unfold get_next_queued_response at hd
    split at hd
    · cases hd
    · split at hd
      case isTrue hfree =>
        simp only [Option.some.injEq, Prod.mk.injEq] at hd
        rw [← hfst, ← hd.1]
        exact Or.inr hfree.2
      case isFalse => cases hd
  | beginTx t now =>
    rw [arbStep, Option.some.injEq] at h
    rw [← h]
    exact hInv
  | commitTx t =>
    rw [arbStep, Option.some.injEq] at h
    rw [← h]
    exact hInv

/-- A whole trace preserves the mutual-exclusion invariant. -/
theorem arbRun_inv (ops : List ArbOp) : ∀ st st' : CoordinatorState,
    MutexInv st → arbRun st ops = some st' → MutexInv st' := by
  induction ops with
  | nil =>
    intro st st' hInv h
    rw [arbRun, Option.some.injEq] at h
    exact h ▸ hInv
  | cons op ops ih =>
    intro st st' hInv h
    rw [arbRun] at h
    cases hstep : arbStep st op with
    | none => rw [hstep] at h; cases h
    | some st1 =>
      rw [hstep] at h
      exact ih st1 st' (arbStep_inv hInv hstep) h

/-- C1: along every trace of request_access, complete_operation and drain
calls from the empty state (transaction calls allowed too), the lock state
never holds a writer together with a non-empty reader set. -/
theorem arbiter_mutual_exclusion (ops : List ArbOp) (st : CoordinatorState)
    (h : arbRun initState ops = some st) :
    st.active_writer = none ∨ st.active_readers = [] :=
  arbRun_inv ops initState st (Or.inl rfl) h

/-- C1 witness: the trace granting a single writer, evaluated concretely. -/
theorem arbiter_mutual_exclusion_witness :
    (CoordinatorState.mk (some "w1") [] [] none).active_writer = none ∨
    (CoordinatorState.mk (some "w1") [] [] none).active_readers = [] :=
  arbiter_mutual_exclusion [ArbOp.request "w1" "write"]
    (CoordinatorState.mk (some "w1") [] [] none) (by decide)

/-- One arbiter call changes the write queue only by appending at the tail or
granting (removing) its head. -/
theorem arbStep_queue (st st1 : CoordinatorState) (op : ArbOp)
    (h : arbStep st op = some st1) :
    ∃ pushed, drainGrant st op ++ st1.write_queue = st.write_queue ++ pushed := by
  cases op with
  | request w oper =>
    rw [arbStep] at h
    rcases Option.map_eq_some'.mp h with ⟨⟨sta, r⟩, hra, hfst⟩
    rcases request_access_state_cases st sta w oper r hra with
      hc | ⟨hc, _, _⟩ | hc | ⟨hc, _⟩
    · exact ⟨[], by rw [← hfst, hc]; simp [drainGrant]⟩
    · exact ⟨[], by rw [← hfst, hc]; simp [drainGrant]⟩
    · exact ⟨[{ worker_id := w, operation := oper }], by rw [← hfst, hc]; simp [drainGrant]⟩
    · exact ⟨[], by rw [← hfst, hc]; simp [drainGrant]⟩
  | complete w =>
    rw [arbStep, Option.some.injEq] at h
    refine ⟨[], ?_⟩
    rw [← h]
    simp only [drainGrant, complete_operation, List.nil_append, List.append_nil]
    split <;> rfl
  | drain =>
    rw [arbStep] at h
    rcases Option.map_eq_some'.mp h with ⟨⟨sta, r⟩, hd, hfst⟩
    unfold get_next_queued_response at hd
    split at hd
    case h_1 hq => cases hd
    case h_2 next rest hq =>
      split at hd
      case isTrue =>
        simp only [Option.some.injEq, Prod.mk.injEq] at hd
        refine ⟨[], ?_⟩
        rw [← hfst, ← hd.1]
        simp [drainGrant, hq]
      case isFalse => cases hd
  | beginTx t now =>
    rw [arbStep, Option.some.injEq] at h
    exact ⟨[], by rw [← h]; simp [drainGrant, begin_transaction]⟩
  | commitTx t =>
    rw [arbStep, Option.some.injEq] at h
    exact ⟨[], by rw [← h]; simp [drainGrant, commit_transaction]⟩

/-- Along any trace, the sequence of drain-granted requests followed by the
final queue equals the initial queue followed by the requests queued during
the trace: the queue is a faithful FIFO. -/
theorem arbRunG_fifo (ops : List ArbOp) : ∀ (st st' : CoordinatorState)
    (grants : List QueuedRequest),
    arbRunG st ops = some (st', grants) →
    ∃ pushed, grants ++ st'.write_queue = st.write_queue ++ pushed := by
  induction ops with
  | nil =>
    intro st st' grants h
    rw [arbRunG, Option.some.injEq, Prod.mk.injEq] at h
    exact ⟨[], by rw [← h.1, ← h.2]; simp⟩
  | cons op ops ih =>
    intro st st' grants h
    rw [arbRunG] at h
    cases hstep : arbStep st op with
    | none => rw [hstep] at h; cases h
    | some st1 =>
      rw [hstep] at h
      rcases Option.map_eq_some'.mp h with ⟨⟨st2, g2⟩, hrun, heq⟩
      rw [Prod.mk.injEq] at heq
      obtain ⟨p2, hp2⟩ := ih st1 st2 g2 hrun
      obtain ⟨p1, hp1⟩ := arbStep_queue st st1 op hstep
      refine ⟨p1 ++ p2, ?_⟩
      rw [← heq.1, ← heq.2, List.append_assoc, hp2, ← List.append_assoc, hp1,
        List.append_assoc]

/-- C3: FIFO fairness — if the queue holds request A at position i and
request B at position j with i < j, then along any trace in which the j-th
drain grant happens, the i-th and j-th drain grants are exactly A and B, so A
is granted strictly before B. -/
theorem write_queue_fifo_fairness (st st' : CoordinatorState) (ops : List ArbOp)
    (grants : List QueuedRequest) (i j : Nat)
    (hrun : arbRunG st ops = some (st', grants))
    (hij : i < j) (hj : j < grants.length) (hjq : j < st.write_queue.length) :
    grants[i]? = st.write_queue[i]? ∧ grants[j]? = st.write_queue[j]? := by
  obtain ⟨pushed, hp⟩ := arbRunG_fifo ops st st' grants hrun
  have key : ∀ k, k < grants.length → k < st.write_queue.length →
      grants[k]? = st.write_queue[k]? := by
    intro k hk hkq
    have h1 : (grants ++ st'.write_queue)[k]? = grants[k]? :=
      List.getElem?_append_left hk
    have h2 : (st.write_queue ++ pushed)[k]? = st.write_queue[k]? :=
      List.getElem?_append_left hkq
    rw [← h1, hp, h2]
  exact ⟨key i (hij.trans hj) (hij.trans hjq), key j hj hjq⟩

/-- C3 witness: with writers a then b queued, the trace drain, complete a,
drain grants a as grant 0 and b as grant 1. -/
theorem write_queue_fifo_fairness_witness :
    ([QueuedRequest.mk "a" "write", QueuedRequest.mk "b" "write"] : List QueuedRequest)[0]? =
      (CoordinatorState.mk none
        [QueuedRequest.mk "a" "write", QueuedRequest.mk "b" "write"] [] none).write_queue[0]? ∧
    ([QueuedRequest.mk "a" "write", QueuedRequest.mk "b" "write"] : List QueuedRequest)[1]? =
      (CoordinatorState.mk none
        [QueuedRequest.mk "a" "write", QueuedRequest.mk "b" "write"] [] none).write_queue[1]? :=
  write_queue_fifo_fairness
    (CoordinatorState.mk none
      [QueuedRequest.mk "a" "write", QueuedRequest.mk "b" "write"] [] none)
    (CoordinatorState.mk (some "b") [] [] none)
    [ArbOp.drain, ArbOp.complete "a", ArbOp.drain]
    [QueuedRequest.mk "a" "write", QueuedRequest.mk "b" "write"]
    0 1 (by decide) (by decide) (by decide) (by decide)

/- ===================== theorems: connection pool ===================== -/

/-- Reusing a free connection never changes the number of stored connections. -/
theorem markAcquired_length (now : Int) : ∀ (cs cs1 : List Connection) (c : Connection),
    markAcquired now cs = some (cs1, c) → cs1.length = cs.length := by
  intro cs
  induction cs with
  | nil => intro cs1 c h; cases h
  | cons d ds ih =>
    intro cs1 c h
    rw [markAcquired] at h
    split at h
    · simp only [Option.some.injEq, Prod.mk.injEq] at h
      rw [← h.1]
      simp
    · rcases Option.map_eq_some'.mp h with ⟨⟨cs2, c2⟩, hm, heq⟩
      rw [Prod.mk.injEq] at heq
      rw [← heq.1]
      simp [ih cs2 c2 hm]

/-- HashMap::insert adds at most one entry. -/
theorem poolInsert_length (cs : List Connection) (c : Connection) :
    (poolInsert cs c).length ≤ cs.length + 1 := by
  unfold poolInsert
  split
  · simp
  · simp

/-- One pool call keeps the connection count within max_size and leaves
max_size itself unchanged. -/
theorem poolStep_capacity (p : PoolState) (op : PoolOp)
    (h : p.connections.length ≤ p.max_size) :
    (poolStep p op).connections.length ≤ (poolStep p op).max_size ∧
    (poolStep p op).max_size = p.max_size := by
  cases op with
  | acquireCall now =>
    simp only [poolStep]
    unfold acquire
    cases hm : markAcquired now p.connections with
    | some pr =>
      obtain ⟨cs, c⟩ := pr
      simp only
      exact ⟨by rw [markAcquired_length now p.connections cs c hm]; exact h, by trivial⟩
    | none =>
      simp only
      split
      case isTrue hlt =>
        refine ⟨?_, by trivial⟩
        calc (poolInsert p.connections _).length
            ≤ p.connections.length + 1 := poolInsert_length _ _
          _ ≤ p.max_size := hlt
      case isFalse => exact ⟨h, by trivial⟩
  | releaseCall id now =>
    simp only [poolStep, release]
    exact ⟨by simpa using h, by trivial⟩
  | cleanupCall now =>
    simp only [poolStep, cleanup_stale_connections]
    exact ⟨le_trans (List.length_filter_le _ _) h, by trivial⟩

/-- A whole trace of pool calls keeps the connection count within max_size. -/
theorem poolRun_capacity (ops : List PoolOp) : ∀ p : PoolState,
    p.connections.length ≤ p.max_size →
    (poolRun p ops).connections.length ≤ (poolRun p ops).max_size ∧
    (poolRun p ops).max_size = p.max_size := by
  induction ops with
  | nil => intro p h; exact ⟨h, rfl⟩
  | cons op ops ih =>
    intro p h
    rw [poolRun]
    obtain ⟨h1, h2⟩ := poolStep_capacity p op h
    obtain ⟨g1, g2⟩ := ih (poolStep p op) h1
    exact ⟨g1, g2.trans h2⟩

/-- C10: along every trace of acquire, release and cleanup calls on a pool of
capacity max_size, the number of stored connections never exceeds max_size,
and available_connections (the usize difference max_size - count) never
underflows: it is the exact complement of the count. -/
theorem pool_capacity_invariant (max_size : Nat) (ops : List PoolOp) :
    (poolRun (emptyPool max_size) ops).connections.length ≤ max_size ∧
    available_connections (poolRun (emptyPool max_size) ops) +
      (poolRun (emptyPool max_size) ops).connections.length = max_size := by
  obtain ⟨h1, h2⟩ := poolRun_capacity ops (emptyPool max_size) (by simp [emptyPool])
  have hmax : (poolRun (emptyPool max_size) ops).max_size = max_size := h2
  rw [hmax] at h1
  refine ⟨h1, ?_⟩
  rw [available_connections, hmax]
  exact Nat.sub_add_cancel h1

/-- C8 counterexample: a connection that is currently acquired (initialized =
true, i.e. busy) and old enough is evicted by cleanup_stale_connections, so
cleanup does not spare busy connections. -/
theorem cleanup_evicts_busy_cex :
    (Connection.mk "conn-0" true 0 false).initialized = true ∧
    (cleanup_stale_connections
      (PoolState.mk [Connection.mk "conn-0" true 0 false] 4) 400000).connections = [] := by
  decide

/-- C8 amended: cleanup_stale_connections keeps a connection exactly when its
last-used age is under the 300000 ms threshold, regardless of whether the
connection is free or currently acquired. -/
theorem cleanup_stale_by_age_only (p : PoolState) (now : Int) (c : Connection) :
    c ∈ (cleanup_stale_connections p now).connections ↔
      c ∈ p.connections ∧ now - c.last_used < 300000 := by
  simp [cleanup_stale_connections, List.mem_filter]

/- ===================== theorems: membership registry and broker ===================== -/

/-- The tabs deque computed by the broker code equals the Membership Registry
sequence computed directly from the event list. -/
theorem runRegistry_tabs (evs : List RegEvent) : ∀ st : TabState,
    (runRegistry st evs).tabs = regOrder evs st.tabs := by
  induction evs with
  | nil => intro st; rfl
  | cons e es ih =>
    intro st
    cases e with
    | register id t =>
      rw [runRegistry, regOrder, ih]
      rfl
    | disconnect id t =>
      rw [runRegistry, regOrder, ih]
      rfl

/-- C2 counterexample: register a at time 0 and b at time 9000; at now =
10000, the last heartbeat of a is 0 (age 10000, beyond the 5000 ms liveness
timeout), the leader claimed by the spec — earliest surviving id with a fresh
heartbeat — is b, yet get_leader returns the stale a: the code never skips a
stale earliest participant. -/
theorem get_leader_ignores_heartbeat_cex :
    lastHeartbeat [RegEvent.register "a" 0, RegEvent.register "b" 9000] "a" = some 0 ∧
    specLeader [RegEvent.register "a" 0, RegEvent.register "b" 9000] 10000 = some "b" ∧
    get_leader (runRegistry emptyTabState
      [RegEvent.register "a" 0, RegEvent.register "b" 9000]) = some "a" := by
  decide

/-- C2 amended: get_leader returns at most one id — the head of the
registration-ordered sequence of still-present participants — with no
heartbeat or staleness filtering at all: for every event trace it equals the
head of the Membership Registry sequence of that trace. -/
theorem get_leader_earliest_surviving (evs : List RegEvent) :
    get_leader (runRegistry emptyTabState evs) = (regOrder evs []).head? := by
  rw [get_leader, runRegistry_tabs]
  rfl

/-- C5 counterexample: with tabs a, b (a the leader) and both ports present,
handling Disconnect a posts no message at all — in particular no
LeaderResponse to the new leader b. -/
theorem disconnect_no_notification_cex :
    handle_message (TabState.mk ["a", "b"] ["a", "b"]) (TabMessage.Disconnect "a") =
      (TabState.mk ["b"] ["b"], []) := by
  decide

/-- C5 amended: the Disconnect handler only removes the participant from the
tabs sequence and the port map and pushes nothing to any channel; the new
leader is derived as the head of the remaining sequence but is only observed
when some participant later sends CheckLeader. -/
theorem disconnect_sends_no_notification (st : TabState) (id : String) :
    handle_message st (TabMessage.Disconnect id) = (remove_tab st id, []) ∧
    get_leader (remove_tab st id) = (st.tabs.filter (fun t => t ≠ id)).head? :=
  ⟨rfl, rfl⟩

/- ===================== theorems: participant client correlation ===================== -/

/-- C6 evaluated at the failing input: caller 0 issues check_leader (token 0
pending); a second check_leader before the response arrives silently
overwrites the slot with token 1; the arriving LeaderResponse is delivered to
token 1 only, and a further LeaderResponse is delivered to nobody — caller
0's result is lost instead of the call being queued or rejected.  route_query
overwrites its query_response_sender slot the same way. -/
theorem pending_token_overwritten_cex :
    (check_leader_start (TabManagerState.mk "tab-1" none none 0)).2.1 = 0 ∧
    ((check_leader_start
      (check_leader_start (TabManagerState.mk "tab-1" none none 0)).1).1).response_sender
      = some 1 ∧
    (on_leader_response (check_leader_start
      (check_leader_start (TabManagerState.mk "tab-1" none none 0)).1).1 true).2
      = some 1 ∧
    (on_leader_response (on_leader_response (check_leader_start
      (check_leader_start (TabManagerState.mk "tab-1" none none 0)).1).1 true).1 true).2
      = none ∧
    (route_query_start (route_query_start
      (TabManagerState.mk "tab-1" none none 0) "SELECT 1").1 "SELECT 2").1.query_response_sender
      = some 1 := by
  decide
